import Mathlib

/-!
Verification of the starfinder catalog pipeline.

Shallow embedding of `src/parsing.cpp` (namespace `starfinder`) and of the
render tool `src/render.cpp`.  IEEE doubles are modelled by the exact value
they carry: a finite double is an exact rational (`FP.num`), and the special
values `inf`/`nan` are explicit constructors.  Arithmetic on finite values is
exact (the spec itself treats the magnitude formula up to a 1e-9 tolerance,
so rounding of individual IEEE operations is idealized away); arithmetic
involving `inf`/`nan` follows IEEE-754.  Conversions from double to unsigned
integer types are modelled as `Option`: `none` stands for the undefined
behaviour the C++ standard assigns to converting a NaN, an infinity or an
out-of-range value.
-/

/-- Exact model of a C++ `double` value: a finite value carries the exact
rational it denotes; infinities carry their sign; NaN is a single point. -/
inductive FP
  | num (q : ℚ)
  | inf (neg : Bool)
  | nan
deriving DecidableEq, Repr

/-- True exactly on finite doubles. -/
def FP.isFinite : FP → Bool
  | .num _ => true
  | _ => false

/-- IEEE-754 subtraction on the `FP` model. -/
def FP.sub : FP → FP → FP
  | .nan, _ => .nan
  | _, .nan => .nan
  | .num a, .num b => .num (a - b)
  | .num _, .inf s => .inf (!s)
  | .inf s, .num _ => .inf s
  | .inf s, .inf t => if s = t then .nan else .inf s

/-- IEEE-754 multiplication on the `FP` model. -/
def FP.mul : FP → FP → FP
  | .nan, _ => .nan
  | _, .nan => .nan
  | .num a, .num b => .num (a * b)
  | .num a, .inf s => if a = 0 then .nan else .inf (xor (a < 0) s)
  | .inf s, .num a => if a = 0 then .nan else .inf (xor s (a < 0))
  | .inf s, .inf t => .inf (xor s t)

/-- One `|`-separated field of a catalog record, as a character list. -/
abbrev FieldStr := List Char

/-- Failure result of `std::stod`: `noConv` models `std::invalid_argument`
(no conversion could be performed), `rangeErr` models `std::out_of_range`
(the parsed value falls outside the range of `double`). -/
inductive StodErr
  | noConv
  | rangeErr
deriving DecidableEq, Repr

/-- C-locale whitespace, as skipped by `strtod`. -/
def isCSpace (c : Char) : Bool :=
  c = ' ' || c = '\t' || c = '\n' || c = '\x0b' || c = '\x0c' || c = '\r'

/-- Drop leading C-locale whitespace. -/
def skipWs : List Char → List Char
  | [] => []
  | c :: rest => if isCSpace c then skipWs rest else c :: rest

/-- Longest decimal-digit prefix, together with the remainder. -/
def takeDigits : List Char → (List Char × List Char)
  | [] => ([], [])
  | c :: rest =>
    if c.isDigit then
      let p := takeDigits rest
      (c :: p.1, p.2)
    else ([], c :: rest)

/-- Numeric value of one decimal digit character. -/
def digitVal (c : Char) : ℕ :=
  if c = '1' then 1 else if c = '2' then 2 else if c = '3' then 3
  else if c = '4' then 4 else if c = '5' then 5 else if c = '6' then 6
  else if c = '7' then 7 else if c = '8' then 8 else if c = '9' then 9
  else 0

/-- Numeric value of a digit string (most significant first). -/
def digitsVal (ds : List Char) : ℕ :=
  ds.foldl (fun a c => 10 * a + digitVal c) 0

/-- ASCII lower-casing, for the case-insensitive `inf`/`nan` forms. -/
def asciiLower (c : Char) : Char :=
  if 'A' ≤ c ∧ c ≤ 'Z' then Char.ofNat (c.toNat + 32) else c

/-- Does `cs` start (case-insensitively) with the lower-case pattern `pat`? -/
def startsWithCI : List Char → List Char → Bool
  | [], _ => true
  | _ :: _, [] => false
  | p :: pt, c :: ct => asciiLower c = p && startsWithCI pt ct

/-- Value of an optional exponent suffix `e[±]digits`; an `e` not followed
by at least one digit is not consumed (`strtod` longest-match rule), which
leaves the exponent at 0. -/
def parseExp (cs : List Char) : ℤ :=
  match cs with
  | c :: rest =>
    if c = 'e' ∨ c = 'E' then
      match rest with
      | '+' :: r2 => if (takeDigits r2).1 = [] then 0 else (digitsVal (takeDigits r2).1 : ℤ)
      | '-' :: r2 => if (takeDigits r2).1 = [] then 0 else -(digitsVal (takeDigits r2).1 : ℤ)
      | r2 => if (takeDigits r2).1 = [] then 0 else (digitsVal (takeDigits r2).1 : ℤ)
    else 0
  | [] => 0

/-- Largest finite `double`, `(2 - 2^-52) * 2^1023`. -/
def maxDouble : ℚ := (2 ^ 53 - 1) * 2 ^ 971

/-- Model of `std::stod` (C locale): skip whitespace, optional sign, then
either a case-insensitive `inf`/`nan` form or a decimal mantissa with
optional fraction and exponent; trailing characters are ignored.  The value
is kept exact instead of being rounded to the nearest double.  A finite
result larger in magnitude than `maxDouble` is a range error
(`std::out_of_range`).  Unmodelled corner cases that no theorem below relies
on: hexadecimal literals, and the implementation-defined range error some
C libraries raise for subnormal results. -/
def stod (cs : FieldStr) : Except StodErr FP :=
  let cs1 := skipWs cs
  let sp : Bool × List Char :=
    match cs1 with
    | '-' :: t => (true, t)
    | '+' :: t => (false, t)
    | _ => (false, cs1)
  let neg := sp.1
  let cs2 := sp.2
  if startsWithCI ['i', 'n', 'f'] cs2 then .ok (.inf neg)
  else if startsWithCI ['n', 'a', 'n'] cs2 then .ok .nan
  else
    let ipr := takeDigits cs2
    let fpr : List Char × List Char :=
      match ipr.2 with
      | '.' :: rf => takeDigits rf
      | _ => ([], ipr.2)
    if ipr.1 = [] ∧ fpr.1 = [] then .error .noConv
    else
      let e := parseExp fpr.2
      let mant : ℚ := (digitsVal ipr.1 : ℚ) + (digitsVal fpr.1 : ℚ) / (10 : ℚ) ^ fpr.1.length
      let q := mant * (10 : ℚ) ^ e
      if maxDouble < |q| then .error .rangeErr
      else .ok (.num (if neg then -q else q))

deriving instance DecidableEq for Except

/-- Structured form of the error messages `parse_field` and
`parse_magnitude` build: `missingField n` is the string
`"Missing field: <n>"`, `invalidField n w` is
`"Failed to parse <n>. (<w>)"` with `w` the exception's `what()`, and
`missingMagnitude b v` is `"Missing magnitude. <b>. <v>"`. -/
inductive Err
  | missingField (name : String)
  | invalidField (name : String) (what : String)
  | missingMagnitude (bErr vErr : Err)
deriving DecidableEq, Repr

namespace starfinder

/-- Embeds `starfinder::Star` (from `parsing.hpp`): immutable ra/dec/mag triple. -/
structure Star where
  ra : FP
  dec : FP
  mag : FP
deriving DecidableEq, Repr

/-- Embeds `starfinder::parse_field`: `record.at(index)` throws `std::out_of_range`
when `index` is out of bounds, and `std::stod` throws `std::out_of_range`
on a range error — the C++ code catches both with the same handler known
as the "Missing field" message; `std::invalid_argument` (libstdc++
`what()` = "stod") produces the "Failed to parse" message. -/
def parse_field (record : List FieldStr) (index : ℕ) (field_name : String) :
    Except Err FP :=
  if h : index < record.length then
    match stod record[index] with
    | .ok v => .ok v
    | .error .noConv => .error (.invalidField field_name "stod")
    | .error .rangeErr => .error (.missingField field_name)
  else .error (.missingField field_name)

/-- Embeds `starfinder::parse_magnitude`: extract BT (column 17) and VT (column
19) independently, then blend `vt - 0.090 * (bt - vt)`, fall back to the
present band, or fail carrying both field errors. -/
def parse_magnitude (record : List FieldStr) : Except Err FP :=
  let bt_mag := parse_field record 17 "BT magnitude"
  let vt_mag := parse_field record 19 "VT magnitude"
  match bt_mag with
  | .ok bt =>
    match vt_mag with
    | .ok vt => .ok (vt.sub ((FP.num (9 / 100)).mul (bt.sub vt)))
    | .error _ => .ok bt
  | .error bErr =>
    match vt_mag with
    | .ok vt => .ok vt
    | .error vErr => .error (.missingMagnitude bErr vErr)

/-- Embeds `starfinder::parse_star_record`: RA (column 24), Dec (column 25), each
failing fast, then the synthesized magnitude. -/
def parse_star_record (record : List FieldStr) : Except Err Star :=
  match parse_field record 24 "RA" with
  | .error e => .error e
  | .ok ra =>
    match parse_field record 25 "Dec" with
    | .error e => .error e
    | .ok dec =>
      match parse_magnitude record with
      | .error e => .error e
      | .ok mag => .ok ⟨ra, dec, mag⟩

/-- Split a character list on a separator; the empty input yields one empty
token, matching `boost::split` on `|`. -/
def splitOnChar (sep : Char) (cs : List Char) : List (List Char) :=
  cs.foldr
    (fun c acc =>
      match acc with
      | [] => [[c]]
      | cur :: rest => if c = sep then [] :: cur :: rest else (c :: cur) :: rest)
    [[]]

/-- The lines `std::getline` yields: split on `'\n'`, with no extra empty
line after a trailing newline, and no line at all from an empty stream. -/
def linesOf (cs : List Char) : List (List Char) :=
  if cs = [] then []
  else if cs.getLast? = some '\n' then (splitOnChar '\n' cs).dropLast
  else splitOnChar '\n' cs

/-- The `|`-split records of a successfully opened file's contents. -/
def recordsOf (content : String) : List (List FieldStr) :=
  (linesOf content.toList).map (splitOnChar '|')

/-- Fatal failure of `read_stars`.  On a stream that failed to open,
`file.tellg()` returns `pos_type(-1)`; converting that to the unsigned
`size_type` argument of `rows.reserve` yields `SIZE_MAX`, which exceeds
`vector::max_size()`, so `reserve` throws `std::length_error` before any
line is read, and the exception escapes `read_stars` uncaught. -/
inductive ReadErr
  | lengthError
deriving DecidableEq, Repr

/-- Embeds `starfinder::read_stars`: the file system is a partial map from
path to contents, and a file that cannot be opened is `none`, on which the
`rows.reserve(file.tellg())` call throws `std::length_error` (see
`ReadErr`) — modelled as `.error`.  On a readable file: split the contents
into lines and records, parse each record, and keep (in order) the stars
of the records that parse.  (An out-of-memory throw from `reserve` on a
gigantic but readable file is not modelled.) -/
def read_stars (fs : String → Option String) (path : String) :
    Except ReadErr (List Star) :=
  match fs path with
  | none => .error .lengthError
  | some content =>
    .ok ((recordsOf content).filterMap (fun r => (parse_star_record r).toOption))

end starfinder

namespace Render

/-- The render tool's own `Star` (`src/render.cpp` duplicates the struct,
with fields `ra_deg`/`de_deg`/`mag`). -/
structure Star where
  ra_deg : ℚ
  de_deg : ℚ
  mag : ℚ
deriving DecidableEq, Repr

/-- Embeds `filter_stars`: keep the stars inside the inclusive RA/Dec window and
at or below the magnitude ceiling (`copy_if` keeps input order). -/
def filter_stars (all_stars : List Star)
    (min_ra max_ra min_dec max_dec max_magnitude : ℚ) : List Star :=
  all_stars.filter fun star =>
    decide (star.ra_deg ≥ min_ra) && decide (star.ra_deg ≤ max_ra) &&
    decide (star.de_deg ≥ min_dec) && decide (star.de_deg ≤ max_dec) &&
    decide (star.mag ≤ max_magnitude)

/-- The `CV_8UC1` pixel buffer, as intensity per `(x, y)` coordinate. -/
abbrev Img := ℕ × ℕ → ℕ

/-- C++ double→`uint32_t` conversion: truncation toward zero, undefined
behaviour when the truncated value is not representable.  On the interval
`(-1, 2^32)` truncation toward zero agrees with `Int.toNat ∘ Int.floor`. -/
def toU32 (v : ℚ) : Option ℕ :=
  if -1 < v ∧ v < 2 ^ 32 then some (Int.toNat ⌊v⌋) else none

/-- The `x`/`y` computation of `render_stars`:
`(coord - minC) / range * size` converted to `uint32_t`.  When
`range = 0` the double division yields `±inf` or NaN, and converting
either to `uint32_t` is undefined behaviour. -/
def pixelCoord (coord minC range : ℚ) (size : ℕ) : Option ℕ :=
  if range = 0 then none else toU32 ((coord - minC) / range * size)

/-- Computes `⌊255 * n^2.5⌋` on exact rationals, via
`255 * n^(5/2) = √(65025 * n^5)` and `⌊√r⌋ = Nat.sqrt ⌊r⌋`
(proved below as `powBright_eq_floor_rpow`). -/
def powBright (n : ℚ) : ℕ := Nat.sqrt (Int.toNat ⌊n ^ 5 * 65025⌋)

/-- Embeds `(uint8_t)(std::pow(normalized, 2.5) * 255)`: `pow` of a negative base
with non-integral exponent is NaN, and a converted value of 256 or more
does not fit `uint8_t`; both conversions are undefined behaviour. -/
def brightnessOf (n : ℚ) : Option ℕ :=
  if 0 ≤ n ∧ powBright n ≤ 255 then some (powBright n) else none

/-- Modelled from the spec: "Pixel intensity `= round(normalized^2.5 *
255)`" — the rounding variant of `powBright`, i.e.
`⌊255 * n^2.5 + 1/2⌋`, computed as `⌊(⌊√(4 * 65025 * n^5)⌋ + 1) / 2⌋`
(justified below by `specRoundBright_eq_round_rpow`). -/
def specRoundBright (n : ℚ) : ℕ :=
  (Nat.sqrt (Int.toNat ⌊n ^ 5 * 65025 * 4⌋) + 1) / 2

/-- Value of `std::minmax_element`'s minimum over the `mag` projection. -/
def listMin : List ℚ → ℚ
  | [] => 0
  | a :: t => t.foldl min a

/-- Value of `std::minmax_element`'s maximum over the `mag` projection. -/
def listMax : List ℚ → ℚ
  | [] => 0
  | a :: t => t.foldl max a

/-- Body of the per-star loop of `render_stars`: compute `x` and `y`,
and when both land inside the image, overwrite that pixel with the
star's brightness (`cv::circle` with radius 0). `none` records undefined
behaviour; in particular `mag_range = 0` makes `normalized_mag` NaN
(`0/0`) or infinite, poisoning the `uint8_t` conversion. -/
def plotStar (width height : ℕ)
    (min_ra ra_range min_dec dec_range max_mag mag_range : ℚ)
    (img : Img) (star : Star) : Option Img :=
  (pixelCoord star.ra_deg min_ra ra_range width).bind fun x =>
    (pixelCoord star.de_deg min_dec dec_range height).bind fun y =>
      if x < width ∧ y < height then
        if mag_range = 0 then none
        else
          (brightnessOf ((max_mag - star.mag) / mag_range)).map fun b =>
            fun p => if p = (x, y) then b else img p
      else some img

/-- The star loop of `render_stars`, threading the image. -/
def renderLoop (width height : ℕ)
    (min_ra ra_range min_dec dec_range max_mag mag_range : ℚ) :
    List Star → Img → Option Img
  | [], img => some img
  | star :: rest, img =>
    (plotStar width height min_ra ra_range min_dec dec_range max_mag
        mag_range img star).bind
      (renderLoop width height min_ra ra_range min_dec dec_range max_mag
        mag_range rest)

/-- Embeds `render_stars`: zero the buffer, return it if there are no stars,
otherwise take min/max magnitude over the input and plot every star. -/
def render_stars (stars : List Star) (width height : ℕ)
    (min_ra max_ra min_dec max_dec : ℚ) : Option Img :=
  if stars = [] then some (fun _ => 0)
  else
    renderLoop width height min_ra (max_ra - min_ra) min_dec
      (max_dec - min_dec) (listMax (stars.map Star.mag))
      (listMax (stars.map Star.mag) - listMin (stars.map Star.mag)) stars
      (fun _ => 0)

/-- Star `t` writes pixel `p`: both coordinate conversions are defined and
land inside the image. -/
def StarWrites (width height : ℕ) (min_ra ra_range min_dec dec_range : ℚ)
    (t : Star) (p : ℕ × ℕ) : Prop :=
  pixelCoord t.ra_deg min_ra ra_range width = some p.1 ∧
    pixelCoord t.de_deg min_dec dec_range height = some p.2 ∧
    p.1 < width ∧ p.2 < height

theorem renderLoop_nil (width height : ℕ)
    (min_ra ra_range min_dec dec_range max_mag mag_range : ℚ) (img : Img) :
    renderLoop width height min_ra ra_range min_dec dec_range max_mag
      mag_range [] img = some img := rfl

theorem renderLoop_cons (width height : ℕ)
    (min_ra ra_range min_dec dec_range max_mag mag_range : ℚ)
    (star : Star) (rest : List Star) (img : Img) :
    renderLoop width height min_ra ra_range min_dec dec_range max_mag
        mag_range (star :: rest) img =
      (plotStar width height min_ra ra_range min_dec dec_range max_mag
          mag_range img star).bind
        (renderLoop width height min_ra ra_range min_dec dec_range max_mag
          mag_range rest) := rfl

theorem plotStar_eq_write (width height : ℕ)
    (min_ra ra_range min_dec dec_range max_mag mag_range : ℚ)
    (img : Img) (star : Star) (x y b : ℕ)
    (hx : pixelCoord star.ra_deg min_ra ra_range width = some x)
    (hy : pixelCoord star.de_deg min_dec dec_range height = some y)
    (hxw : x < width) (hyh : y < height) (hmr : ¬mag_range = 0)
    (hb : brightnessOf ((max_mag - star.mag) / mag_range) = some b) :
    plotStar width height min_ra ra_range min_dec dec_range max_mag mag_range
        img star =
      some (fun p => if p = (x, y) then b else img p) := by
  rw [plotStar, hx, Option.some_bind, hy, Option.some_bind, if_pos ⟨hxw, hyh⟩,
    if_neg hmr, hb, Option.map_some']

theorem plotStar_eq_skip (width height : ℕ)
    (min_ra ra_range min_dec dec_range max_mag mag_range : ℚ)
    (img : Img) (star : Star) (x y : ℕ)
    (hx : pixelCoord star.ra_deg min_ra ra_range width = some x)
    (hy : pixelCoord star.de_deg min_dec dec_range height = some y)
    (hxy : ¬(x < width ∧ y < height)) :
    plotStar width height min_ra ra_range min_dec dec_range max_mag mag_range
        img star = some img := by
  rw [plotStar, hx, Option.some_bind, hy, Option.some_bind, if_neg hxy]

theorem plotStar_eq_nan (width height : ℕ)
    (min_ra ra_range min_dec dec_range max_mag : ℚ)
    (img : Img) (star : Star) (x y : ℕ)
    (hx : pixelCoord star.ra_deg min_ra ra_range width = some x)
    (hy : pixelCoord star.de_deg min_dec dec_range height = some y)
    (hxw : x < width) (hyh : y < height) :
    plotStar width height min_ra ra_range min_dec dec_range max_mag 0
        img star = none := by
  rw [plotStar, hx, Option.some_bind, hy, Option.some_bind,
    if_pos ⟨hxw, hyh⟩, if_pos rfl]

theorem render_stars_of_ne_nil (stars : List Star) (width height : ℕ)
    (min_ra max_ra min_dec max_dec : ℚ) (h : stars ≠ []) :
    render_stars stars width height min_ra max_ra min_dec max_dec =
      renderLoop width height min_ra (max_ra - min_ra) min_dec
        (max_dec - min_dec) (listMax (stars.map Star.mag))
        (listMax (stars.map Star.mag) - listMin (stars.map Star.mag)) stars
        (fun _ => 0) := by
  rw [render_stars, if_neg h]

end Render

/-- C7: a star is retained by the filter iff it lies in the inclusive
RA/Dec window and its magnitude is at most the ceiling. -/
theorem filter_stars_mem_iff (all_stars : List Render.Star)
    (min_ra max_ra min_dec max_dec max_magnitude : ℚ) (s : Render.Star) :
    s ∈ Render.filter_stars all_stars min_ra max_ra min_dec max_dec
        max_magnitude ↔
      s ∈ all_stars ∧ min_ra ≤ s.ra_deg ∧ s.ra_deg ≤ max_ra ∧
        min_dec ≤ s.de_deg ∧ s.de_deg ≤ max_dec ∧ s.mag ≤ max_magnitude := by
  simp [Render.filter_stars, List.mem_filter, and_assoc, ge_iff_le]

/-- C8: filtering an already-filtered list with the same bounds returns
the identical list. -/
theorem filter_stars_idempotent (all_stars : List Render.Star)
    (min_ra max_ra min_dec max_dec max_magnitude : ℚ) :
    Render.filter_stars
        (Render.filter_stars all_stars min_ra max_ra min_dec max_dec
          max_magnitude)
        min_ra max_ra min_dec max_dec max_magnitude =
      Render.filter_stars all_stars min_ra max_ra min_dec max_dec
        max_magnitude := by
  simp [Render.filter_stars, List.filter_filter]

/-- C5 (amended): `parse_field` returns the "Missing field" failure exactly
when the index is out of bounds or `stod` raises a range error; the
"Failed to parse" failure exactly when the field is in bounds and `stod`
can perform no conversion; and the parsed value otherwise.  (Total
function: it never throws.) -/
theorem parse_field_classification (record : List FieldStr) (index : ℕ)
    (name : String) :
    (starfinder.parse_field record index name = .error (.missingField name) ↔
      record.length ≤ index ∨
        stod (record.getD index []) = .error .rangeErr)
    ∧ (starfinder.parse_field record index name =
          .error (.invalidField name "stod") ↔
      index < record.length ∧ stod (record.getD index []) = .error .noConv)
    ∧ ∀ v, starfinder.parse_field record index name = .ok v ↔
      index < record.length ∧ stod (record.getD index []) = .ok v := by
  by_cases h : index < record.length
  · have hg : record.getD index [] = record[index] := List.getD_eq_getElem _ _ h
    unfold starfinder.parse_field
    rw [dif_pos h]
    rcases hs : stod record[index] with e | v
    · cases e <;> simp [hg, hs, h, Nat.not_lt.mpr h]
    · simp [hg, hs, h, Nat.not_lt.mpr h]
  · have hg : record.getD index [] = [] := by
      rw [List.getD_eq_default]
      omega
    have hs : stod ([] : FieldStr) = .error .noConv := rfl
    unfold starfinder.parse_field
    rw [dif_neg h]
    simp [hg, hs, Nat.le_of_not_lt h, h]

/-- C5 counterexample: `"1e999"` at an in-bounds index is syntactically a
floating-point number, but its value overflows `double`; `std::stod`
throws `std::out_of_range` and `parse_field` reports the missing-field
failure even though the column exists. -/
theorem parse_field_overflow_cex :
    0 < (["1e999".toList] : List FieldStr).length ∧
      starfinder.parse_field ["1e999".toList] 0 "RA" =
        .error (.missingField "RA") := by
  refine ⟨by simp, ?_⟩
  have hs : stod ("1e999".toList) = .error .rangeErr := by
    norm_num +decide [stod, skipWs, isCSpace, startsWithCI, asciiLower,
      takeDigits, digitsVal, digitVal, parseExp, maxDouble, String.toList,
      abs_le]
  unfold starfinder.parse_field
  rw [dif_pos (by simp)]
  simp only [List.getElem_cons_zero]
  rw [hs]

/-- C2: if both BT and VT parse as finite numbers the synthesized magnitude
is `vt - 0.090 * (bt - vt)`; if only one parses it is that one; if neither
parses, the failure carries both underlying field errors.  The two
extractions are independent: a BT failure does not suppress VT. -/
theorem parse_magnitude_spec (record : List FieldStr) (qb qv : ℚ)
    (eb ev : Err) :
    (starfinder.parse_field record 17 "BT magnitude" = .ok (.num qb) →
      starfinder.parse_field record 19 "VT magnitude" = .ok (.num qv) →
      starfinder.parse_magnitude record =
        .ok (.num (qv - 9 / 100 * (qb - qv))))
    ∧ (starfinder.parse_field record 17 "BT magnitude" = .ok (.num qb) →
      starfinder.parse_field record 19 "VT magnitude" = .error ev →
      starfinder.parse_magnitude record = .ok (.num qb))
    ∧ (starfinder.parse_field record 17 "BT magnitude" = .error eb →
      starfinder.parse_field record 19 "VT magnitude" = .ok (.num qv) →
      starfinder.parse_magnitude record = .ok (.num qv))
    ∧ (starfinder.parse_field record 17 "BT magnitude" = .error eb →
      starfinder.parse_field record 19 "VT magnitude" = .error ev →
      starfinder.parse_magnitude record = .error (.missingMagnitude eb ev)) := by
  refine ⟨fun hb hv => ?_, fun hb hv => ?_, fun hb hv => ?_, fun hb hv => ?_⟩ <;>
    simp only [starfinder.parse_magnitude, hb, hv, FP.sub, FP.mul]

theorem parse_field_ok_of (record : List FieldStr) (index : ℕ) (name : String)
    (v : FP) (h : index < record.length) (hs : stod record[index] = .ok v) :
    starfinder.parse_field record index name = .ok v := by
  unfold starfinder.parse_field
  rw [dif_pos h, hs]

theorem parse_field_invalid_of (record : List FieldStr) (index : ℕ)
    (name : String) (h : index < record.length)
    (hs : stod record[index] = .error .noConv) :
    starfinder.parse_field record index name =
      .error (.invalidField name "stod") := by
  unfold starfinder.parse_field
  rw [dif_pos h, hs]

theorem parse_field_missing_of_range (record : List FieldStr) (index : ℕ)
    (name : String) (h : index < record.length)
    (hs : stod record[index] = .error .rangeErr) :
    starfinder.parse_field record index name =
      .error (.missingField name) := by
  unfold starfinder.parse_field
  rw [dif_pos h, hs]

theorem parse_field_missing_of_oob (record : List FieldStr) (index : ℕ)
    (name : String) (h : record.length ≤ index) :
    starfinder.parse_field record index name =
      .error (.missingField name) := by
  unfold starfinder.parse_field
  rw [dif_neg (Nat.not_lt.mpr h)]

theorem stod_five : stod "5.0".toList = .ok (.num 5) := by
  norm_num +decide [stod, skipWs, isCSpace, startsWithCI, asciiLower,
    takeDigits, digitsVal, digitVal, parseExp, maxDouble, String.toList, abs_le]

theorem stod_four_point_five : stod "4.5".toList = .ok (.num (9 / 2)) := by
  norm_num +decide [stod, skipWs, isCSpace, startsWithCI, asciiLower,
    takeDigits, digitsVal, digitVal, parseExp, maxDouble, String.toList, abs_le]

theorem stod_zero : stod "0.0".toList = .ok (.num 0) := by
  norm_num +decide [stod, skipWs, isCSpace, startsWithCI, asciiLower,
    takeDigits, digitsVal, digitVal, parseExp, maxDouble, String.toList, abs_le]

theorem stod_ten : stod "10.0".toList = .ok (.num 10) := by
  norm_num +decide [stod, skipWs, isCSpace, startsWithCI, asciiLower,
    takeDigits, digitsVal, digitVal, parseExp, maxDouble, String.toList, abs_le]

theorem stod_twenty : stod "20.0".toList = .ok (.num 20) := by
  norm_num +decide [stod, skipWs, isCSpace, startsWithCI, asciiLower,
    takeDigits, digitsVal, digitVal, parseExp, maxDouble, String.toList, abs_le]

theorem stod_empty : stod ([] : FieldStr) = .error .noConv := rfl

theorem stod_inf : stod "inf".toList = .ok (.inf false) := by decide

/-- C2 witness: the four branches at concrete records (BT "5.0" at column
17, VT "4.5" at column 19, missing/invalid otherwise). -/
theorem parse_magnitude_spec_witness :
    starfinder.parse_magnitude
        (List.replicate 17 ([] : FieldStr) ++ ["5.0".toList, [], "4.5".toList]) =
      .ok (.num (9 / 2 - 9 / 100 * (5 - 9 / 2)))
    ∧ starfinder.parse_magnitude
        (List.replicate 17 ([] : FieldStr) ++ ["5.0".toList]) = .ok (.num 5)
    ∧ starfinder.parse_magnitude
        (List.replicate 17 ([] : FieldStr) ++ [[], [], "4.5".toList]) =
      .ok (.num (9 / 2))
    ∧ starfinder.parse_magnitude (List.replicate 20 ([] : FieldStr)) =
      .error (.missingMagnitude (.invalidField "BT magnitude" "stod")
        (.invalidField "VT magnitude" "stod")) :=
  ⟨(parse_magnitude_spec _ 5 (9 / 2) (.missingField "") (.missingField "")).1
      (parse_field_ok_of _ 17 _ _ (by decide) stod_five)
      (parse_field_ok_of _ 19 _ _ (by decide) stod_four_point_five),
    (parse_magnitude_spec _ 5 0 (.missingField "")
          (.missingField "VT magnitude")).2.1
      (parse_field_ok_of _ 17 _ _ (by decide) stod_five)
      (parse_field_missing_of_oob _ 19 _ (by decide)),
    (parse_magnitude_spec _ 0 (9 / 2) (.invalidField "BT magnitude" "stod")
          (.missingField "")).2.2.1
      (parse_field_invalid_of _ 17 _ (by decide) stod_empty)
      (parse_field_ok_of _ 19 _ _ (by decide) stod_four_point_five),
    (parse_magnitude_spec _ 0 0 (.invalidField "BT magnitude" "stod")
          (.invalidField "VT magnitude" "stod")).2.2.2
      (parse_field_invalid_of _ 17 _ (by decide) stod_empty)
      (parse_field_invalid_of _ 19 _ (by decide) stod_empty)⟩

theorem parse_field_congr (r1 r2 : List FieldStr) (i : ℕ) (n : String)
    (hlen : i < r1.length ↔ i < r2.length)
    (hval : ∀ (h1 : i < r1.length) (h2 : i < r2.length), r1[i] = r2[i]) :
    starfinder.parse_field r1 i n = starfinder.parse_field r2 i n := by
  unfold starfinder.parse_field
  by_cases h1 : i < r1.length
  · have h2 := hlen.mp h1
    rw [dif_pos h1, dif_pos h2, hval h1 h2]
  · rw [dif_neg h1, dif_neg (fun h2 => h1 (hlen.mpr h2))]

/-- C10: the parse outcome of a record depends only on the fields at
columns 17, 19, 24 and 25: two records agreeing there (same in-bounds
status, same text when present) parse identically — both reject, or both
yield stars with equal ra, dec and mag. -/
theorem parse_star_record_depends_only_on_columns (r1 r2 : List FieldStr)
    (hagree : ∀ i ∈ ([17, 19, 24, 25] : List ℕ),
      (i < r1.length ↔ i < r2.length) ∧
        ∀ (h1 : i < r1.length) (h2 : i < r2.length), r1[i] = r2[i]) :
    (starfinder.parse_star_record r1).toOption =
      (starfinder.parse_star_record r2).toOption := by
  have h17 := hagree 17 (by simp)
  have h19 := hagree 19 (by simp)
  have h24 := hagree 24 (by simp)
  have h25 := hagree 25 (by simp)
  have e24 : starfinder.parse_field r1 24 "RA" =
      starfinder.parse_field r2 24 "RA" :=
    parse_field_congr r1 r2 24 "RA" h24.1 h24.2
  have e25 : starfinder.parse_field r1 25 "Dec" =
      starfinder.parse_field r2 25 "Dec" :=
    parse_field_congr r1 r2 25 "Dec" h25.1 h25.2
  have em : starfinder.parse_magnitude r1 = starfinder.parse_magnitude r2 := by
    unfold starfinder.parse_magnitude
    rw [parse_field_congr r1 r2 17 "BT magnitude" h17.1 h17.2,
      parse_field_congr r1 r2 19 "VT magnitude" h19.1 h19.2]
  unfold starfinder.parse_star_record
  rw [e24, e25, em]

/-- C10 witness: a 26-field record and a 30-field record that agree only at
columns 17, 19, 24, 25 parse to the same outcome. -/
theorem parse_star_record_depends_only_on_columns_witness :
    (starfinder.parse_star_record
        (List.replicate 17 ([] : FieldStr) ++ ["5.0".toList, [], "4.5".toList]
          ++ List.replicate 4 [] ++ ["10.0".toList, "20.0".toList])).toOption =
      (starfinder.parse_star_record
        (List.replicate 17 ("x".toList) ++ ["5.0".toList, "y".toList,
          "4.5".toList] ++ List.replicate 4 ("z".toList)
          ++ ["10.0".toList, "20.0".toList] ++ List.replicate 4 ("w".toList))).toOption :=
  parse_star_record_depends_only_on_columns _ _ (by decide)

/-- C1: on a file that does not exist or cannot be opened, `read_stars`
fails fatally and returns no star list, not even an empty one: the failed
stream's `tellg()` is `pos_type(-1)`, so `rows.reserve` is asked for
`SIZE_MAX` elements and throws `std::length_error` before any line is
read — the read stage aborts (the spec's `IOError` failure mode). -/
theorem read_stars_missing_file_fatal (fs : String → Option String)
    (path : String) (h : fs path = none) :
    starfinder.read_stars fs path = .error .lengthError ∧
      ∀ stars, starfinder.read_stars fs path ≠ .ok stars := by
  have e : starfinder.read_stars fs path = .error .lengthError := by
    unfold starfinder.read_stars
    rw [h]
  refine ⟨e, fun stars hc => ?_⟩
  rw [e] at hc
  cases hc

/-- C1 witness: the fatal-failure theorem at a file system with no file at
the default catalog path. -/
theorem read_stars_missing_file_fatal_witness :
    starfinder.read_stars (fun _ => none) "data/tycho2/catalog.dat" =
        .error .lengthError ∧
      ∀ stars, starfinder.read_stars (fun _ => none) "data/tycho2/catalog.dat" ≠
        .ok stars :=
  read_stars_missing_file_fatal (fun _ => none) "data/tycho2/catalog.dat" rfl

/-- C9 (amended): every star returned by a successful `read_stars` is the
successful parse of one of the records of the file that was read. -/
theorem read_stars_stars_are_parsed (fs : String → Option String)
    (path : String) (stars : List starfinder.Star) (s : starfinder.Star)
    (hok : starfinder.read_stars fs path = .ok stars) (h : s ∈ stars) :
    ∃ content, fs path = some content ∧
      ∃ r ∈ starfinder.recordsOf content,
        starfinder.parse_star_record r = .ok s := by
  unfold starfinder.read_stars at hok
  cases hc : fs path with
  | none =>
    rw [hc] at hok
    cases hok
  | some content =>
    rw [hc] at hok
    refine ⟨content, rfl, ?_⟩
    rw [← Except.ok.inj hok] at h
    rcases List.mem_filterMap.mp h with ⟨r, hr, hparse⟩
    refine ⟨r, hr, ?_⟩
    cases hp : starfinder.parse_star_record r with
    | ok a => rw [hp] at hparse; cases hparse; rfl
    | error e => rw [hp] at hparse; cases hparse

theorem infLine_records :
    starfinder.recordsOf "|||||||||||||||||5.0|||||||inf|0.0" =
      [List.replicate 17 ([] : FieldStr) ++ ["5.0".toList]
        ++ List.replicate 6 [] ++ ["inf".toList, "0.0".toList]] := by
  decide

theorem infLine_record_parse :
    starfinder.parse_star_record
        (List.replicate 17 ([] : FieldStr) ++ ["5.0".toList]
          ++ List.replicate 6 [] ++ ["inf".toList, "0.0".toList]) =
      .ok ⟨.inf false, .num 0, .num 5⟩ := by
  have h24 : starfinder.parse_field
      (List.replicate 17 ([] : FieldStr) ++ ["5.0".toList]
        ++ List.replicate 6 [] ++ ["inf".toList, "0.0".toList]) 24 "RA" =
      .ok (.inf false) :=
    parse_field_ok_of _ 24 _ _ (by decide) stod_inf
  have h25 : starfinder.parse_field
      (List.replicate 17 ([] : FieldStr) ++ ["5.0".toList]
        ++ List.replicate 6 [] ++ ["inf".toList, "0.0".toList]) 25 "Dec" =
      .ok (.num 0) :=
    parse_field_ok_of _ 25 _ _ (by decide) stod_zero
  have h17 : starfinder.parse_field
      (List.replicate 17 ([] : FieldStr) ++ ["5.0".toList]
        ++ List.replicate 6 [] ++ ["inf".toList, "0.0".toList]) 17
        "BT magnitude" = .ok (.num 5) :=
    parse_field_ok_of _ 17 _ _ (by decide) stod_five
  have h19 : starfinder.parse_field
      (List.replicate 17 ([] : FieldStr) ++ ["5.0".toList]
        ++ List.replicate 6 [] ++ ["inf".toList, "0.0".toList]) 19
        "VT magnitude" = .error (.invalidField "VT magnitude" "stod") :=
    parse_field_invalid_of _ 19 _ (by decide) stod_empty
  have hm : starfinder.parse_magnitude
      (List.replicate 17 ([] : FieldStr) ++ ["5.0".toList]
        ++ List.replicate 6 [] ++ ["inf".toList, "0.0".toList]) =
      .ok (.num 5) := by
    unfold starfinder.parse_magnitude
    rw [h17, h19]
  unfold starfinder.parse_star_record
  rw [h24, h25, hm]

theorem infLine_read_stars :
    starfinder.read_stars
        (fun p => if p = "catalog.dat"
          then some "|||||||||||||||||5.0|||||||inf|0.0" else none)
        "catalog.dat" = .ok [⟨.inf false, .num 0, .num 5⟩] := by
  have e : starfinder.read_stars
      (fun p => if p = "catalog.dat"
        then some "|||||||||||||||||5.0|||||||inf|0.0" else none)
      "catalog.dat" =
      .ok ((starfinder.recordsOf "|||||||||||||||||5.0|||||||inf|0.0").filterMap
        (fun r => (starfinder.parse_star_record r).toOption)) := rfl
  rw [e, infLine_records]
  simp only [List.filterMap_cons, List.filterMap_nil, infLine_record_parse,
    Except.toOption]

/-- C9 counterexample: a catalog line whose RA field is the text `inf`
parses successfully (stod accepts `inf`), so `read_stars` returns a star
whose RA is not finite. -/
theorem read_stars_not_finite_cex :
    starfinder.read_stars
        (fun p => if p = "catalog.dat"
          then some "|||||||||||||||||5.0|||||||inf|0.0" else none)
        "catalog.dat" = .ok [⟨.inf false, .num 0, .num 5⟩]
    ∧ ([⟨.inf false, .num 0, .num 5⟩] : List starfinder.Star).all
        (fun s => s.ra.isFinite && s.dec.isFinite && s.mag.isFinite) =
      false :=
  ⟨infLine_read_stars, rfl⟩

/-- C9 witness for the amended theorem, at the infinite-RA file. -/
theorem read_stars_stars_are_parsed_witness :
    ∃ content,
      (fun p => if p = "catalog.dat"
        then some "|||||||||||||||||5.0|||||||inf|0.0" else none)
        "catalog.dat" = some content ∧
      ∃ r ∈ starfinder.recordsOf content,
        starfinder.parse_star_record r = .ok ⟨.inf false, .num 0, .num 5⟩ :=
  read_stars_stars_are_parsed _ "catalog.dat" _ ⟨.inf false, .num 0, .num 5⟩
    infLine_read_stars (List.mem_singleton.mpr rfl)

/-- C3: when all stars share one magnitude, `render_stars` has no special
case: `mag_range = 0`, `normalized_mag = 0/0` is NaN, and converting
`pow(NaN, 2.5) * 255` to `uint8_t` is undefined behaviour (`none` in the
model) — not `normalized = 1.0` with intensity 255 at both pixels. -/
theorem render_equal_magnitudes_nan :
    Render.render_stars [⟨2, 2, 5⟩, ⟨7, 7, 5⟩] 10 10 0 10 0 10 = none := by
  rw [Render.render_stars_of_ne_nil _ _ _ _ _ _ _ (by simp)]
  norm_num [Render.listMax, Render.listMin]
  rw [Render.renderLoop_cons,
    Render.plotStar_eq_nan 10 10 0 10 0 10 5 _ _ 2 2
      (by norm_num [Render.pixelCoord, Render.toU32] <;> rfl)
      (by norm_num [Render.pixelCoord, Render.toU32] <;> rfl)
      (by norm_num) (by norm_num)]
  rfl

/-- C6: the pixel of a star at `(minRa, minDec)` computes to `(0, 0)`, but
rendering a single such star does not place it there: with one star
`minMag = maxMag`, so `normalized_mag` is NaN (`0/0`) and the `uint8_t`
conversion is undefined behaviour (`none` in the model). -/
theorem render_single_star_origin_nan :
    Render.pixelCoord 0 0 (10 - 0) 10 = some 0
    ∧ Render.render_stars [⟨0, 0, 5⟩] 10 10 0 10 0 10 = none := by
  constructor
  · norm_num [Render.pixelCoord, Render.toU32]
  · rw [Render.render_stars_of_ne_nil _ _ _ _ _ _ _ (by simp)]
    norm_num [Render.listMax, Render.listMin]
    rw [Render.renderLoop_cons,
      Render.plotStar_eq_nan 10 10 0 10 0 10 5 _ _ 0 0
        (by norm_num [Render.pixelCoord, Render.toU32])
        (by norm_num [Render.pixelCoord, Render.toU32])
        (by norm_num) (by norm_num)]
    rfl

namespace Render

theorem plotStar_some_cases (width height : ℕ)
    (min_ra ra_range min_dec dec_range max_mag mag_range : ℚ)
    (img img2 : Img) (star : Star)
    (h : plotStar width height min_ra ra_range min_dec dec_range max_mag
      mag_range img star = some img2) (p : ℕ × ℕ) :
    (StarWrites width height min_ra ra_range min_dec dec_range star p ∧
      ∃ b, brightnessOf ((max_mag - star.mag) / mag_range) = some b ∧
        img2 p = b) ∨
    (¬StarWrites width height min_ra ra_range min_dec dec_range star p ∧
      img2 p = img p) := by
  unfold plotStar at h
  rcases Option.bind_eq_some.mp h with ⟨x, hx, h⟩
  rcases Option.bind_eq_some.mp h with ⟨y, hy, h⟩
  by_cases hin : x < width ∧ y < height
  · rw [if_pos hin] at h
    by_cases hmr : mag_range = 0
    · rw [if_pos hmr] at h
      cases h
    · rw [if_neg hmr] at h
      rcases Option.map_eq_some'.mp h with ⟨b, hb, himg⟩
      by_cases hp : p = (x, y)
      · refine Or.inl ⟨⟨?_, ?_, ?_, ?_⟩, b, hb, ?_⟩
        · rw [hp]
          exact hx
        · rw [hp]
          exact hy
        · rw [hp]
          exact hin.1
        · rw [hp]
          exact hin.2
        · rw [← himg]
          simp [hp]
      · refine Or.inr ⟨?_, ?_⟩
        · rintro ⟨hw1, hw2, _, _⟩
          rw [hx] at hw1
          rw [hy] at hw2
          exact hp (Prod.ext (Option.some.inj hw1).symm (Option.some.inj hw2).symm)
        · rw [← himg]
          simp [hp]
  · rw [if_neg hin] at h
    refine Or.inr ⟨?_, ?_⟩
    · rintro ⟨hw1, hw2, hw3, hw4⟩
      rw [hx] at hw1
      rw [hy] at hw2
      exact hin ⟨(Option.some.inj hw1) ▸ hw3, (Option.some.inj hw2) ▸ hw4⟩
    · rw [Option.some.inj h]

theorem renderLoop_pixel_value (width height : ℕ)
    (min_ra ra_range min_dec dec_range max_mag mag_range : ℚ) (p : ℕ × ℕ)
    (v : ℕ) :
    ∀ (l : List Star) (img f : Img),
      renderLoop width height min_ra ra_range min_dec dec_range max_mag
        mag_range l img = some f →
      (∀ t ∈ l, StarWrites width height min_ra ra_range min_dec dec_range t p →
        brightnessOf ((max_mag - t.mag) / mag_range) = some v) →
      ((∃ t ∈ l, StarWrites width height min_ra ra_range min_dec dec_range t p) →
          f p = v) ∧
        ((∀ t ∈ l, ¬StarWrites width height min_ra ra_range min_dec dec_range t p) →
          f p = img p) := by
  intro l
  induction l with
  | nil =>
    intro img f hf _
    rw [renderLoop_nil] at hf
    cases hf
    exact ⟨fun ⟨t, ht, _⟩ => absurd ht (List.not_mem_nil t), fun _ => rfl⟩
  | cons t rest ih =>
    intro img f hf hv
    rw [renderLoop_cons] at hf
    rcases Option.bind_eq_some.mp hf with ⟨img1, hplot, hrest⟩
    have hvr : ∀ u ∈ rest,
        StarWrites width height min_ra ra_range min_dec dec_range u p →
        brightnessOf ((max_mag - u.mag) / mag_range) = some v :=
      fun u hu => hv u (List.mem_cons_of_mem t hu)
    have IH := ih img1 f hrest hvr
    rcases plotStar_some_cases width height min_ra ra_range min_dec dec_range
        max_mag mag_range img img1 t hplot p with
      ⟨hw, b, hb, himg1⟩ | ⟨hnw, himg1⟩
    · have hbv : b = v := by
        have := hv t (List.mem_cons_self t rest) hw
        rw [hb] at this
        exact Option.some.inj this
      constructor
      · intro _
        by_cases hrw : ∃ u ∈ rest,
            StarWrites width height min_ra ra_range min_dec dec_range u p
        · exact IH.1 hrw
        · push_neg at hrw
          rw [IH.2 hrw, himg1, hbv]
      · intro hall
        exact absurd hw (hall t (List.mem_cons_self t rest))
    · constructor
      · rintro ⟨u, hu, huw⟩
        rcases List.mem_cons.mp hu with rfl | hu
        · exact absurd huw hnw
        · exact IH.1 ⟨u, hu, huw⟩
      · intro hall
        have : ∀ u ∈ rest,
            ¬StarWrites width height min_ra ra_range min_dec dec_range u p :=
          fun u hu => hall u (List.mem_cons_of_mem t hu)
        rw [IH.2 this, himg1]

end Render

theorem foldl_max_init_le : ∀ (t : List ℚ) (init : ℚ), init ≤ t.foldl max init
  | [], _ => le_refl _
  | b :: t, init =>
    le_trans (le_max_left init b) (foldl_max_init_le t (max init b))

theorem le_foldl_max : ∀ (t : List ℚ) (init a : ℚ), a ∈ t → a ≤ t.foldl max init
  | b :: t, init, a, h => by
    rcases List.mem_cons.mp h with rfl | h
    · exact le_trans (le_max_right init a) (foldl_max_init_le t _)
    · exact le_foldl_max t _ a h

theorem le_listMax_of_mem {l : List ℚ} {a : ℚ} (h : a ∈ l) :
    a ≤ Render.listMax l := by
  cases l with
  | nil => cases h
  | cons b t =>
    rcases List.mem_cons.mp h with rfl | h
    · exact foldl_max_init_le t a
    · exact le_foldl_max t b a h

theorem foldl_min_le_init : ∀ (t : List ℚ) (init : ℚ), t.foldl min init ≤ init
  | [], _ => le_refl _
  | b :: t, init =>
    le_trans (foldl_min_le_init t (min init b)) (min_le_left init b)

theorem foldl_min_le : ∀ (t : List ℚ) (init a : ℚ), a ∈ t → t.foldl min init ≤ a
  | b :: t, init, a, h => by
    rcases List.mem_cons.mp h with rfl | h
    · exact le_trans (foldl_min_le_init t _) (min_le_right init a)
    · exact foldl_min_le t _ a h

theorem listMin_le_of_mem {l : List ℚ} {a : ℚ} (h : a ∈ l) :
    Render.listMin l ≤ a := by
  cases l with
  | nil => cases h
  | cons b t =>
    rcases List.mem_cons.mp h with rfl | h
    · exact foldl_min_le_init t a
    · exact foldl_min_le t b a h

theorem floor_sqrt_ratCast (r : ℚ) (hr : 0 ≤ r) :
    ⌊Real.sqrt (r : ℝ)⌋ = Nat.sqrt (Int.toNat ⌊r⌋) := by
  have hfl : ((Int.toNat ⌊r⌋ : ℤ) : ℚ) = (⌊r⌋ : ℚ) := by
    rw [Int.toNat_of_nonneg (Int.floor_nonneg.mpr hr)]
  set m : ℕ := Int.toNat ⌊r⌋ with hm
  have hmr : (m : ℝ) ≤ (r : ℝ) := by
    have h1 : ((m : ℚ) : ℝ) ≤ (r : ℝ) := by
      rw [Rat.cast_le]
      rw [show ((m : ℚ)) = ((⌊r⌋ : ℚ)) by exact_mod_cast hfl]
      exact Int.floor_le r
    simpa using h1
  have hrm : (r : ℝ) < (m : ℝ) + 1 := by
    have h1 : (r : ℝ) < ((m : ℚ) : ℝ) + 1 := by
      rw [show ((m : ℚ) : ℝ) + 1 = (((m : ℚ) + 1 : ℚ) : ℝ) by push_cast; ring]
      rw [Rat.cast_lt]
      rw [show ((m : ℚ)) = ((⌊r⌋ : ℚ)) by exact_mod_cast hfl]
      exact Int.lt_floor_add_one r
    simpa using h1
  rw [Int.floor_eq_iff]
  constructor
  · calc ((Nat.sqrt m : ℤ) : ℝ) = (Nat.sqrt m : ℝ) := by push_cast; rfl
      _ ≤ Real.sqrt (m : ℝ) := Real.nat_sqrt_le_real_sqrt
      _ ≤ Real.sqrt (r : ℝ) := Real.sqrt_le_sqrt hmr
  · have hpos : (0 : ℝ) < (Nat.sqrt m : ℝ) + 1 := by positivity
    rw [show ((Nat.sqrt m : ℤ) : ℝ) + 1 = (Nat.sqrt m : ℝ) + 1 by push_cast; ring]
    rw [Real.sqrt_lt' hpos]
    calc (r : ℝ) < (m : ℝ) + 1 := hrm
      _ ≤ ((Nat.sqrt m : ℝ) + 1) ^ 2 := by
        have := Nat.lt_succ_sqrt' m
        have h2 : (m : ℝ) + 1 ≤ ((Nat.sqrt m + 1 : ℕ) : ℝ) ^ 2 := by
          rw [show ((Nat.sqrt m + 1 : ℕ) : ℝ) ^ 2 = (((Nat.sqrt m + 1) ^ 2 : ℕ) : ℝ) by push_cast; ring]
          exact_mod_cast Nat.succ_le_of_lt this
        calc (m : ℝ) + 1 ≤ ((Nat.sqrt m + 1 : ℕ) : ℝ) ^ 2 := h2
          _ = ((Nat.sqrt m : ℝ) + 1) ^ 2 := by push_cast; ring

theorem sqrt_65025 : Real.sqrt 65025 = 255 := by
  rw [show (65025 : ℝ) = 255 ^ 2 by norm_num]
  exact Real.sqrt_sq (by norm_num)

theorem rpow_five_halves_eq_sqrt {x : ℝ} (hx : 0 ≤ x) :
    x ^ ((5 : ℝ) / 2) = Real.sqrt (x ^ 5) := by
  rw [Real.sqrt_eq_rpow, ← Real.rpow_natCast x 5, ← Real.rpow_mul hx]
  norm_num

theorem powBright_eq_floor_rpow (n : ℚ) (hn : 0 ≤ n) :
    (Render.powBright n : ℤ) = ⌊(255 : ℝ) * (n : ℝ) ^ ((5 : ℝ) / 2)⌋ := by
  have hn' : (0 : ℝ) ≤ (n : ℝ) := by exact_mod_cast hn
  have h1 : (255 : ℝ) * (n : ℝ) ^ ((5 : ℝ) / 2) =
      Real.sqrt (((n ^ 5 * 65025 : ℚ) : ℝ)) := by
    rw [rpow_five_halves_eq_sqrt hn']
    rw [show ((n ^ 5 * 65025 : ℚ) : ℝ) = (65025 : ℝ) * (n : ℝ) ^ 5 by
      push_cast; ring]
    rw [Real.sqrt_mul (by norm_num), sqrt_65025]
  rw [h1, floor_sqrt_ratCast _ (by positivity), Render.powBright]

theorem powBright_le_255 {n : ℚ} (h1 : n ≤ 1) : Render.powBright n ≤ 255 := by
  unfold Render.powBright
  have hle : ⌊n ^ 5 * 65025⌋ ≤ 65025 := by
    have : n ^ 5 * 65025 ≤ 65025 := by
      rcases le_or_lt 0 n with hn | hn
      · have hp : n ^ 5 ≤ 1 := pow_le_one₀ hn h1
        nlinarith
      · have hp : n ^ 5 < 0 := Odd.pow_neg (by decide) hn
        nlinarith
    calc (⌊n ^ 5 * 65025⌋ : ℤ) ≤ ⌊(65025 : ℚ)⌋ := Int.floor_le_floor this
      _ = 65025 := by norm_num
  have htn : Int.toNat ⌊n ^ 5 * 65025⌋ ≤ 65025 := by omega
  calc Nat.sqrt (Int.toNat ⌊n ^ 5 * 65025⌋) ≤ Nat.sqrt 65025 :=
      Nat.sqrt_le_sqrt htn
    _ = 255 := by norm_num

/-- C4 (amended): the written pixel intensity is the *truncation*
`⌊normalized^2.5 * 255⌋` (the C++ `uint8_t` cast truncates; it does not
round), for every plotted star when the magnitudes are not all equal; the
value already lies in `[0, 255]`, so clamping never applies. -/
theorem render_pixel_intensity_trunc (stars : List Render.Star)
    (width height : ℕ) (min_ra max_ra min_dec max_dec : ℚ)
    (s : Render.Star) (x y : ℕ)
    (hmem : s ∈ stars)
    (hx : Render.pixelCoord s.ra_deg min_ra (max_ra - min_ra) width = some x)
    (hy : Render.pixelCoord s.de_deg min_dec (max_dec - min_dec) height = some y)
    (hxw : x < width) (hyh : y < height)
    (hrange : Render.listMin (stars.map Render.Star.mag) ≠
      Render.listMax (stars.map Render.Star.mag))
    (huniq : ∀ t ∈ stars,
      Render.StarWrites width height min_ra (max_ra - min_ra) min_dec
        (max_dec - min_dec) t (x, y) → t.mag = s.mag)
    (hsome : (Render.render_stars stars width height min_ra max_ra min_dec
      max_dec).isSome = true) :
    Option.map (fun g => ((g (x, y) : ℕ) : ℤ))
        (Render.render_stars stars width height min_ra max_ra min_dec
          max_dec) =
      some ⌊(255 : ℝ) *
        (((Render.listMax (stars.map Render.Star.mag) - s.mag) /
            (Render.listMax (stars.map Render.Star.mag) -
              Render.listMin (stars.map Render.Star.mag)) : ℚ) : ℝ) ^
          ((5 : ℝ) / 2)⌋ := by
  have hne : stars ≠ [] := by
    rintro rfl
    cases hmem
  rcases Option.isSome_iff_exists.mp hsome with ⟨f, hf⟩
  set M := Render.listMax (stars.map Render.Star.mag) with hM
  set m0 := Render.listMin (stars.map Render.Star.mag) with hm0
  have hsM : s.mag ≤ M := le_listMax_of_mem (List.mem_map_of_mem _ hmem)
  have hsm : m0 ≤ s.mag := listMin_le_of_mem (List.mem_map_of_mem _ hmem)
  have hlt : m0 < M := lt_of_le_of_ne (le_trans hsm hsM) hrange
  set n := (M - s.mag) / (M - m0) with hn
  have hn0 : 0 ≤ n := div_nonneg (by linarith) (by linarith)
  have hn1 : n ≤ 1 := by
    rw [hn, div_le_one (by linarith)]
    linarith
  have hb : Render.brightnessOf n = some (Render.powBright n) := by
    unfold Render.brightnessOf
    rw [if_pos ⟨hn0, powBright_le_255 hn1⟩]
  have hf' := hf
  rw [Render.render_stars_of_ne_nil _ _ _ _ _ _ _ hne] at hf'
  have hv : ∀ t ∈ stars,
      Render.StarWrites width height min_ra (max_ra - min_ra) min_dec
        (max_dec - min_dec) t (x, y) →
      Render.brightnessOf ((M - t.mag) / (M - m0)) =
        some (Render.powBright n) := by
    intro t ht hw
    rw [huniq t ht hw]
    exact hb
  have hval := Render.renderLoop_pixel_value width height min_ra
    (max_ra - min_ra) min_dec (max_dec - min_dec) M (M - m0) (x, y)
    (Render.powBright n) stars (fun _ => 0) f hf' hv
  have hfp : f (x, y) = Render.powBright n :=
    hval.1 ⟨s, hmem, hx, hy, hxw, hyh⟩
  rw [hf, Option.map_some', hfp]
  exact congrArg some (powBright_eq_floor_rpow n hn0)

theorem nat_floor_sqrt_ratCast (r : ℚ) (hr : 0 ≤ r) :
    ⌊Real.sqrt (r : ℝ)⌋₊ = Nat.sqrt ⌊r⌋₊ := by
  rw [← Int.floor_toNat, floor_sqrt_ratCast r hr, ← Int.floor_toNat]
  rfl

theorem specRoundBright_eq_round_rpow (q : ℚ) (hq : 0 ≤ q) :
    Render.specRoundBright q =
      ⌊(255 : ℝ) * (q : ℝ) ^ ((5 : ℝ) / 2) + 1 / 2⌋₊ := by
  have hq' : (0 : ℝ) ≤ (q : ℝ) := by exact_mod_cast hq
  have h255 : (255 : ℝ) * (q : ℝ) ^ ((5 : ℝ) / 2) =
      Real.sqrt (((q ^ 5 * 65025 : ℚ) : ℝ)) := by
    rw [rpow_five_halves_eq_sqrt hq']
    rw [show ((q ^ 5 * 65025 : ℚ) : ℝ) = (65025 : ℝ) * (q : ℝ) ^ 5 by
      push_cast; ring]
    rw [Real.sqrt_mul (by norm_num), sqrt_65025]
  set r : ℚ := q ^ 5 * 65025 with hrdef
  have hr : 0 ≤ r := by positivity
  have h4 : Real.sqrt ((r : ℝ)) + 1 / 2 =
      (Real.sqrt (((4 * r : ℚ) : ℝ)) + 1) / 2 := by
    rw [show ((4 * r : ℚ) : ℝ) = 4 * (r : ℝ) by push_cast; ring,
      show (4 : ℝ) * (r : ℝ) = 2 ^ 2 * (r : ℝ) by ring,
      Real.sqrt_mul (by positivity), Real.sqrt_sq (by norm_num)]
    ring
  rw [h255, h4]
  rw [show (2 : ℝ) = ((2 : ℕ) : ℝ) by norm_num, Nat.floor_div_nat,
    Nat.floor_add_one (Real.sqrt_nonneg _),
    nat_floor_sqrt_ratCast _ (by positivity)]
  unfold Render.specRoundBright
  rw [← Int.floor_toNat]
  congr 3
  ring_nf

/-- Concrete three-star rendering used by the C4 results: magnitudes
0, 3/4, 1 at pixels (1,1), (3,3), (5,5) of a 10×10 image. -/
theorem render_trio_eq :
    Render.render_stars [⟨1, 1, 0⟩, ⟨3, 3, 3 / 4⟩, ⟨5, 5, 1⟩] 10 10 0 10
        0 10 =
      some (fun p => if p = (5, 5) then 0 else if p = (3, 3) then 7
        else if p = (1, 1) then 255 else 0) := by
  rw [Render.render_stars_of_ne_nil _ _ _ _ _ _ _ (by simp)]
  norm_num [Render.listMax, Render.listMin]
  rw [Render.renderLoop_cons,
    Render.plotStar_eq_write 10 10 0 10 0 10 1 1 _ _ 1 1 255
      (by norm_num [Render.pixelCoord, Render.toU32])
      (by norm_num [Render.pixelCoord, Render.toU32])
      (by norm_num) (by norm_num) (by norm_num)
      (by norm_num [Render.brightnessOf, Render.powBright]
          norm_num [show Int.toNat 65025 = 65025 from rfl]),
    Option.some_bind, Render.renderLoop_cons,
    Render.plotStar_eq_write 10 10 0 10 0 10 1 1 _ _ 3 3 7
      (by norm_num [Render.pixelCoord, Render.toU32] <;> rfl)
      (by norm_num [Render.pixelCoord, Render.toU32] <;> rfl)
      (by norm_num) (by norm_num) (by norm_num)
      (by norm_num [Render.brightnessOf, Render.powBright]
          norm_num [show Int.toNat 63 = 63 from rfl]),
    Option.some_bind, Render.renderLoop_cons,
    Render.plotStar_eq_write 10 10 0 10 0 10 1 1 _ _ 5 5 0
      (by norm_num [Render.pixelCoord, Render.toU32] <;> rfl)
      (by norm_num [Render.pixelCoord, Render.toU32] <;> rfl)
      (by norm_num) (by norm_num) (by norm_num)
      (by norm_num [Render.brightnessOf, Render.powBright]),
    Option.some_bind, Render.renderLoop_nil]
  rfl

/-- C4 counterexample: with stars of magnitudes 0, 3/4, 1 in a 10×10 image,
the middle star has normalized brightness 1/4 and true intensity
`255 * (1/4)^2.5 = 7.96875`; the code writes the truncation 7, while the
claimed `round(normalized^2.5 * 255)` is 8. -/
theorem render_intensity_truncates_cex :
    Option.map (fun g => g (3, 3))
        (Render.render_stars [⟨1, 1, 0⟩, ⟨3, 3, 3 / 4⟩, ⟨5, 5, 1⟩] 10 10 0 10
          0 10) = some 7
    ∧ ⌊(255 : ℝ) * ((1 / 4 : ℚ) : ℝ) ^ ((5 : ℝ) / 2) + 1 / 2⌋₊ = 8 := by
  constructor
  · rw [render_trio_eq]
    norm_num
  · rw [← specRoundBright_eq_round_rpow _ (by norm_num)]
    unfold Render.specRoundBright
    have hf : ⌊((1 / 4 : ℚ)) ^ 5 * 65025 * 4⌋ = (254 : ℤ) := by
      rw [Int.floor_eq_iff] <;> norm_num
    rw [hf]
    norm_num [show Int.toNat 254 = 254 from rfl]

/-- C4 witness: the amended theorem applied to the middle star of the
three-star configuration. -/
theorem render_pixel_intensity_trunc_witness :
    Option.map (fun g => ((g (3, 3) : ℕ) : ℤ))
        (Render.render_stars [⟨1, 1, 0⟩, ⟨3, 3, 3 / 4⟩, ⟨5, 5, 1⟩] 10 10 0 10
          0 10) =
      some ⌊(255 : ℝ) *
        (((Render.listMax
              (([⟨1, 1, 0⟩, ⟨3, 3, 3 / 4⟩, ⟨5, 5, 1⟩] : List Render.Star).map
                Render.Star.mag) - (⟨3, 3, 3 / 4⟩ : Render.Star).mag) /
            (Render.listMax
              (([⟨1, 1, 0⟩, ⟨3, 3, 3 / 4⟩, ⟨5, 5, 1⟩] : List Render.Star).map
                Render.Star.mag) -
              Render.listMin
                (([⟨1, 1, 0⟩, ⟨3, 3, 3 / 4⟩, ⟨5, 5, 1⟩] : List Render.Star).map
                  Render.Star.mag)) : ℚ) : ℝ) ^ ((5 : ℝ) / 2)⌋ := by
  have e1 : Render.pixelCoord ((⟨1, 1, 0⟩ : Render.Star)).ra_deg 0 (10 - 0) 10 =
      some 1 := by norm_num [Render.pixelCoord, Render.toU32]
  have e5 : Render.pixelCoord ((⟨5, 5, 1⟩ : Render.Star)).ra_deg 0 (10 - 0) 10 =
      some 5 := by norm_num [Render.pixelCoord, Render.toU32] <;> rfl
  refine render_pixel_intensity_trunc _ 10 10 0 10 0 10 ⟨3, 3, 3 / 4⟩ 3 3
    (List.mem_cons_of_mem _ (List.mem_cons_self _ _))
    (by norm_num [Render.pixelCoord, Render.toU32] <;> rfl)
    (by norm_num [Render.pixelCoord, Render.toU32] <;> rfl)
    (by norm_num) (by norm_num)
    (by norm_num [Render.listMin, Render.listMax])
    ?_ (by rw [render_trio_eq]; rfl)
  intro t ht hw
  rcases List.mem_cons.mp ht with rfl | ht
  · exfalso
    have h1 := hw.1
    rw [e1] at h1
    exact absurd (Option.some.inj h1) (by norm_num)
  rcases List.mem_cons.mp ht with rfl | ht
  · rfl
  rcases List.mem_cons.mp ht with rfl | ht
  · exfalso
    have h1 := hw.1
    rw [e5] at h1
    exact absurd (Option.some.inj h1) (by norm_num)
  cases ht

/-- C5 witness: the classification applied at a concrete in-bounds field. -/
theorem parse_field_classification_witness :
    starfinder.parse_field ["4.5".toList] 0 "Dec" = .ok (.num (9 / 2)) :=
  ((parse_field_classification ["4.5".toList] 0 "Dec").2.2 (.num (9 / 2))).mpr
    ⟨by decide, stod_four_point_five⟩

/-- C7 witness: the retention criterion applied at a concrete star list. -/
theorem filter_stars_mem_iff_witness :
    (⟨5, 5, 3⟩ : Render.Star) ∈
      Render.filter_stars [⟨5, 5, 3⟩, ⟨5, 5, 7⟩] 0 360 (-90) 90 6 :=
  (filter_stars_mem_iff _ 0 360 (-90) 90 6 _).mpr
    ⟨List.mem_cons_self _ _, by norm_num, by norm_num, by norm_num,
      by norm_num, by norm_num⟩
